import Mathlib

/-!
Verification of tree-sitter-grep (the sources in src/lib.rs and
src/treesitter/mod.rs) against its natural-language specification.

Modelling conventions:
* File contents are byte lists (`List Nat`); a Rust string slice obtained
  from `std::str::from_utf8` is the same byte list, guarded by the
  executable UTF-8 validity check `validUtf8` below, which implements the
  standard UTF-8 acceptance table used by `std::str::from_utf8`.
* External collaborators (the tree-sitter C library, the directory walker of
  the ignore crate, the filesystem, the query compiler) are oracle fields of
  an `Env` record.  The code of the repository itself is translated
  literally on top of them.
* A Rust panic (`unwrap` / `expect` / a failed `assert!`) aborts the process
  with a non-zero exit code; it is modelled as `Except.error msg` and
  propagates through every caller (panics are not caught anywhere in this
  program).
-/

/-- Opaque handle for a tree-sitter `Language` (grammar). -/
structure TSLanguage where
  id : Nat
deriving DecidableEq, Repr

/-- Opaque handle for a compiled tree-sitter `Query`. -/
structure TSQuery where
  id : Nat
deriving DecidableEq, Repr

/-- A syntax-tree node as the code observes it: its kind string and the byte
range reported by `node.range()` (fields `start_byte` / `end_byte`). -/
structure TSNode where
  kind : String
  startByte : Nat
  endByte : Nat
deriving DecidableEq, Repr

/-- A parse tree; the code only ever uses `tree.root_node()`. -/
structure TSTree where
  rootNode : TSNode
deriving DecidableEq, Repr

/-- One query match produced by `QueryCursor.matches`: its list of captures,
each a pair (capture index, captured node), in capture order. -/
structure TSQueryMatch where
  captures : List (Nat × TSNode)
deriving DecidableEq, Repr

/-- Source: `QueryMatch.nodes_for_capture_index` of the tree-sitter crate:
the nodes of the captures whose index equals the requested one, in order. -/
def TSQueryMatch.nodes_for_capture_index (m : TSQueryMatch) (captureIndex : Nat) :
    List TSNode :=
  (m.captures.filter (fun c => c.1 = captureIndex)).map (fun c => c.2)

/-- Model of `grep::matcher::Match`: a byte range.  The Rust field named
`end` is called `stop` here (`end` is a Lean keyword). -/
structure GrepMatch where
  start : Nat
  stop : Nat
deriving DecidableEq, Repr

/-- Model of `grep::matcher::Match::new(start, end)`: documented to panic
when `start > end` (its body contains `assert!(start <= end)`). -/
def GrepMatch.new (s e : Nat) : Except String GrepMatch :=
  if s ≤ e then .ok ⟨s, e⟩ else .error "assertion failed: start <= end"

/-- A directory entry yielded by the walker of the ignore crate, as the code
observes it: its path string and the value of `entry.path().extension()`
(computed by the standard library, hence part of the oracle data). -/
structure DirEntry where
  path : String
  extension : Option String
deriving DecidableEq, Repr

/-- One step of the walk iterator: `Ok(entry)` or a walk error. -/
abbrev WalkItem := Except String DirEntry

/-- The external world: the tree-sitter C functions, the query compiler, the
filesystem and the directory walker.  All are fixed, deterministic functions
for the duration of a run. -/
structure Env where
  /-- Result of `fs::read_to_string` on the query-file path: `none` means an
  I/O error. -/
  readFile : String → Option String
  /-- Result of reading the bytes of a project file: `none` means an I/O
  error. -/
  readFileBytes : String → Option (List Nat)
  /-- Result of `tree_sitter::Query::new(language, source)`: `none` means a
  compile error. -/
  compileQuery : TSLanguage → String → Option TSQuery
  /-- Whether `Parser::set_language` accepts the grammar (ABI version
  check). -/
  versionOk : TSLanguage → Bool
  /-- The tree produced by `ts_parser_parse` for a given grammar and text.
  tree-sitter is error-tolerant: this is total, returning a (possibly
  partial) tree for every input text. -/
  parseTree : TSLanguage → List Nat → TSTree
  /-- Result of `QueryCursor::matches(query, root_node, bytes)`. -/
  queryMatches : TSQuery → TSNode → List Nat → List TSQueryMatch
  /-- The sequence produced by the iterator of `WalkBuilder::new(".")`
  (recursive walk from the current directory honouring ignore files, with
  the rust default type selected). -/
  walkEntries : List WalkItem

/-- UTF-8 validity of a byte sequence, exactly the acceptance table of
`std::str::from_utf8` (well-formed UTF-8 byte sequences per the Unicode
standard). -/
def validUtf8 : List Nat → Bool
  | [] => true
  | b0 :: rest =>
    if b0 ≤ 0x7F then validUtf8 rest
    else if 0xC2 ≤ b0 ∧ b0 ≤ 0xDF then
      match rest with
      | b1 :: r => (0x80 ≤ b1 && b1 ≤ 0xBF) && validUtf8 r
      | [] => false
    else if b0 = 0xE0 then
      match rest with
      | b1 :: b2 :: r =>
        (0xA0 ≤ b1 && b1 ≤ 0xBF) && ((0x80 ≤ b2 && b2 ≤ 0xBF) && validUtf8 r)
      | _ => false
    else if (0xE1 ≤ b0 ∧ b0 ≤ 0xEC) ∨ b0 = 0xEE ∨ b0 = 0xEF then
      match rest with
      | b1 :: b2 :: r =>
        (0x80 ≤ b1 && b1 ≤ 0xBF) && ((0x80 ≤ b2 && b2 ≤ 0xBF) && validUtf8 r)
      | _ => false
    else if b0 = 0xED then
      match rest with
      | b1 :: b2 :: r =>
        (0x80 ≤ b1 && b1 ≤ 0x9F) && ((0x80 ≤ b2 && b2 ≤ 0xBF) && validUtf8 r)
      | _ => false
    else if b0 = 0xF0 then
      match rest with
      | b1 :: b2 :: b3 :: r =>
        (0x90 ≤ b1 && b1 ≤ 0xBF) && ((0x80 ≤ b2 && b2 ≤ 0xBF) &&
          ((0x80 ≤ b3 && b3 ≤ 0xBF) && validUtf8 r))
      | _ => false
    else if 0xF1 ≤ b0 ∧ b0 ≤ 0xF3 then
      match rest with
      | b1 :: b2 :: b3 :: r =>
        (0x80 ≤ b1 && b1 ≤ 0xBF) && ((0x80 ≤ b2 && b2 ≤ 0xBF) &&
          ((0x80 ≤ b3 && b3 ≤ 0xBF) && validUtf8 r))
      | _ => false
    else if b0 = 0xF4 then
      match rest with
      | b1 :: b2 :: b3 :: r =>
        (0x80 ≤ b1 && b1 ≤ 0x8F) && ((0x80 ≤ b2 && b2 ≤ 0xBF) &&
          ((0x80 ≤ b3 && b3 ≤ 0xBF) && validUtf8 r))
      | _ => false
    else false

/-- Model of `std::str::from_utf8(bytes)`: the same bytes viewed as a string
slice when valid, an error otherwise. -/
def from_utf8 (bytes : List Nat) : Option (List Nat) :=
  if validUtf8 bytes then some bytes else none

/-- A `tree_sitter::Parser`; the only state the code relies on is whether a
language has been set. -/
structure TSParser where
  language : Option TSLanguage
deriving DecidableEq, Repr

/-- Model of `Parser::new()`: fresh parser with no language set. -/
def TSParser.new : TSParser := ⟨none⟩

/-- Model of `Parser::set_language`: succeeds (recording the grammar) iff
the ABI version of the grammar is compatible. -/
def TSParser.set_language (_p : TSParser) (env : Env) (language : TSLanguage) :
    Except String TSParser :=
  if env.versionOk language then .ok ⟨some language⟩
  else .error "incompatible language version"

/-- Model of `Parser::parse(text, None)`: per the documented tree-sitter
contract it returns `None` only when no language is set (or when a
cancellation flag or a timeout is configured, which this program never
does); with a language set it always returns a (possibly partial) tree,
even for text with syntax errors. -/
def TSParser.parse (p : TSParser) (env : Env) (text : List Nat) : Option TSTree :=
  match p.language with
  | none => none
  | some language => some (env.parseTree language text)

/-- Source: `get_parser` in src/treesitter/mod.rs: build a parser and set
the grammar; the `expect` panics with "Error loading grammar" on version
mismatch. -/
def getParser (env : Env) (language : TSLanguage) : Except String TSParser :=
  match TSParser.new.set_language env language with
  | .ok parser => .ok parser
  | .error _ => .error "Error loading grammar"

/-- Source: `get_query` in src/treesitter/mod.rs: compile the query source;
the `unwrap` panics on compile failure. -/
def get_query (env : Env) (source : String) (language : TSLanguage) :
    Except String TSQuery :=
  match env.compileQuery language source with
  | some query => .ok query
  | none => .error "called Option.unwrap on a None value"

/-- Model of the Rust iterator pipeline `.map(f).collect()` when `f` may
panic: evaluate `f` on each element in order, aborting at the first
panic. -/
def exceptMap {α β : Type} (f : α → Except String β) :
    List α → Except String (List β)
  | [] => .ok []
  | a :: rest =>
    match f a with
    | .error e => .error e
    | .ok b =>
      match exceptMap f rest with
      | .error e => .error e
      | .ok bs => .ok (b :: bs)

/-- Source: `get_matches` in src/treesitter/mod.rs: check UTF-8 (the
`expect` panics on invalid bytes), parse (`unwrap` of the returned option),
run the query cursor over the root node, flat-map the nodes of each match at
the requested capture index, and turn the byte range of each node into a
grep match. -/
def get_matches (env : Env) (query : TSQuery) (captureIndex : Nat)
    (fileTextAsBytes : List Nat) (language : TSLanguage) :
    Except String (List GrepMatch) :=
  match from_utf8 fileTextAsBytes with
  | none => .error "Expected file text to be valid UTF-8"
  | some fileText =>
    match getParser env language with
    | .error e => .error e
    | .ok parser =>
      match parser.parse env fileText with
      | none => .error "called Option.unwrap on a None value"
      | some tree =>
        exceptMap (fun node => GrepMatch.new node.startByte node.endByte)
          ((env.queryMatches query tree.rootNode fileTextAsBytes).flatMap
            (fun m => m.nodes_for_capture_index captureIndex))

/-- Source: `enumerate_project_files` in src/lib.rs: consume the walk
iterator, `filter_map(|entry| entry.ok())` (dropping walk errors silently),
then keep only entries whose path has an extension equal to "rs".  The walk
itself (recursion from the current directory, ignore files, the rust type
filter) belongs to the ignore crate and enters through the oracle list. -/
def enumerate_project_files (walkEntries : List WalkItem) : List DirEntry :=
  (walkEntries.filterMap (fun entry =>
      match entry with
      | .ok dirEntry => some dirEntry
      | .error _ => none)).filter
    (fun entry =>
      match entry.extension with
      | none => false
      | some ext => "rs" = ext)

/-- The grammar src/lib.rs is hard-wired to (its walker selects the rust
type and the tests drive it on Rust fixtures). -/
def rustLanguage : TSLanguage := ⟨0⟩

/-- Modelled from the spec: `get_results`, called by `run` in src/lib.rs but
absent from src/ (only `get_matches` is there).  Per section 4.6 of the spec
it reads the bytes of the file (per-file I/O errors are "logged to stderr
and skipped; the run continues", section 7), obtains the match records via
the match engine, and converts each surviving byte range into printable
records; the record text itself (line expansion, section 4.6) is kept
abstract as path:start:stop, since no claim depends on it.  Any panic from
`get_matches` propagates. -/
def get_results (env : Env) (query : TSQuery) (path : String)
    (captureIndex : Nat) : Except String (List String) :=
  match env.readFileBytes path with
  | none => .ok []
  | some bytes =>
    match get_matches env query captureIndex bytes rustLanguage with
    | .error e => .error e
    | .ok matchRecords =>
      .ok (matchRecords.map (fun m =>
        path ++ ":" ++ toString m.start ++ ":" ++ toString m.stop))

/-- The per-file pipeline of `run`: `flat_map` of `get_results` over the
enumerated entries with capture index 0, collecting the printed records.
The rayon `par_iter` is modelled sequentially; a panic in any file aborts
the whole run (rayon propagates worker panics to the caller). -/
def runFiles (env : Env) (query : TSQuery) :
    List DirEntry → Except String (List String)
  | [] => .ok []
  | entry :: rest =>
    match get_results env query entry.path 0 with
    | .error e => .error e
    | .ok records =>
      match runFiles env query rest with
      | .error e => .error e
      | .ok restRecords => .ok (records ++ restRecords)

/-- Source: `run` in src/lib.rs: read the query file (the `unwrap` panics on
I/O error), compile the query (`get_query` panics on compile error), then
process every enumerated project file with capture index 0, printing each
record.  The result is the list of printed lines, or the panic message. -/
def run (env : Env) (pathToQueryFile : String) : Except String (List String) :=
  match env.readFile pathToQueryFile with
  | none => .error "called Result.unwrap on an Err value"
  | some querySource =>
    match get_query env querySource rustLanguage with
    | .error e => .error e
    | .ok query => runFiles env query (enumerate_project_files env.walkEntries)

/-- A concrete external world used by witnesses: one matching Rust file
(bytes "fn", one query match capturing the root node at index 0), one walk
error, and one extensionless entry. -/
def envW : Env where
  readFile := fun _ => some "(function_item) @f"
  readFileBytes := fun _ => some [102, 110]
  compileQuery := fun _ _ => some ⟨1⟩
  versionOk := fun _ => true
  parseTree := fun _ _ => ⟨⟨"source_file", 0, 2⟩⟩
  queryMatches := fun _ _ _ => [⟨[(0, ⟨"function_item", 0, 2⟩)]⟩]
  walkEntries := [.ok ⟨"./a.rs", some "rs"⟩, .error "walk error",
    .ok ⟨"README", none⟩]

/-- A second concrete world for the determinism witness: identical to `envW`
on the oracles `get_matches` consults, different elsewhere. -/
def envW2 : Env :=
  { envW with
    readFile := fun _ => none
    walkEntries := [] }

/-- A concrete world whose first enumerated file has bytes that are not
valid UTF-8 (the lone byte 0xFF), while the second file is well-formed. -/
def envBad : Env :=
  { envW with
    readFileBytes := fun p =>
      if p = "./bad.rs" then some [0xFF] else some [102, 110]
    walkEntries := [.ok ⟨"./bad.rs", some "rs"⟩, .ok ⟨"./good.rs", some "rs"⟩] }

/-- A concrete world whose query compiler rejects every source. -/
def envBadQuery : Env :=
  { envW with compileQuery := fun _ _ => none }

/-- A concrete world whose query file is unreadable. -/
def envNoFile : Env :=
  { envW with readFile := fun _ => none }

/-- Helper: when every node is well-ranged, the panic-propagating map of
`GrepMatch.new` succeeds and returns exactly one match per node, carrying
the byte range of that node. -/
theorem exceptMap_new_ok (nodes : List TSNode)
    (h : ∀ n ∈ nodes, n.startByte ≤ n.endByte) :
    exceptMap (fun n => GrepMatch.new n.startByte n.endByte) nodes =
      .ok (nodes.map (fun n => ⟨n.startByte, n.endByte⟩)) := by
  induction nodes with
  | nil => rfl
  | cons a l ih =>
    have ha : a.startByte ≤ a.endByte := h a (List.mem_cons_self a l)
    have hl := ih (fun n hn => h n (List.mem_cons_of_mem a hn))
    simp only [exceptMap, hl]
    simp [GrepMatch.new, ha]

/-- Helper: every element of a successful `exceptMap` output comes from some
input element on which the function succeeded. -/
theorem exceptMap_ok_mem {α β : Type} (f : α → Except String β) (l : List α)
    (out : List β) (h : exceptMap f l = .ok out) :
    ∀ b ∈ out, ∃ a ∈ l, f a = .ok b := by
  induction l generalizing out with
  | nil =>
    simp [exceptMap] at h
    subst h
    simp
  | cons a l ih =>
    rw [exceptMap] at h
    cases hfa : f a with
    | error e => simp [hfa] at h
    | ok b0 =>
      rw [hfa] at h
      cases hfl : exceptMap f l with
      | error e => simp [hfl] at h
      | ok out0 =>
        rw [hfl] at h
        simp at h
        subst h
        intro b hb
        rcases List.mem_cons.mp hb with hb | hb
        · subst hb
          exact ⟨a, List.mem_cons_self a l, hfa⟩
        · rcases ih out0 hfl b hb with ⟨a0, ha0, hfa0⟩
          exact ⟨a0, List.mem_cons_of_mem a ha0, hfa0⟩

/-- Helper: a node listed by `nodes_for_capture_index i` occurs in the
captures of the match, paired with index `i`. -/
theorem mem_nodes_for_capture_index {m : TSQueryMatch} {i : Nat} {n : TSNode}
    (h : n ∈ m.nodes_for_capture_index i) : (i, n) ∈ m.captures := by
  unfold TSQueryMatch.nodes_for_capture_index at h
  rcases List.mem_map.mp h with ⟨c, hc, hcn⟩
  rcases List.mem_filter.mp hc with ⟨hmem, hidx⟩
  have h1 : c.1 = i := by exact_mod_cast of_decide_eq_true hidx
  have h2 : c = (i, n) := by
    cases c
    simp_all
  rw [← h2]
  exact hmem

/-- Helper: on valid UTF-8 and a version-compatible grammar, `get_matches`
reduces to the node-to-range conversion over the captured nodes of the query
matches on the parsed tree. -/
theorem get_matches_ok_eq (env : Env) (q : TSQuery) (i : Nat) (b : List Nat)
    (l : TSLanguage) (hutf : validUtf8 b = true)
    (hver : env.versionOk l = true) :
    get_matches env q i b l =
      exceptMap (fun node => GrepMatch.new node.startByte node.endByte)
        ((env.queryMatches q (env.parseTree l b).rootNode b).flatMap
          (fun m => m.nodes_for_capture_index i)) := by
  unfold get_matches from_utf8 getParser TSParser.set_language
  simp [hutf, hver, TSParser.parse]

/-- Helper: inversion of a successful `get_matches` call. -/
theorem get_matches_ok_inv (env : Env) (q : TSQuery) (i : Nat) (b : List Nat)
    (l : TSLanguage) (ms : List GrepMatch)
    (h : get_matches env q i b l = .ok ms) :
    validUtf8 b = true ∧ env.versionOk l = true ∧
      exceptMap (fun node => GrepMatch.new node.startByte node.endByte)
        ((env.queryMatches q (env.parseTree l b).rootNode b).flatMap
          (fun m => m.nodes_for_capture_index i)) = .ok ms := by
  by_cases hutf : validUtf8 b
  · by_cases hver : env.versionOk l
    · rw [get_matches_ok_eq env q i b l hutf hver] at h
      exact ⟨hutf, hver, h⟩
    · unfold get_matches from_utf8 getParser TSParser.set_language at h
      simp [hutf, hver] at h
  · unfold get_matches from_utf8 at h
    simp [hutf] at h

/-- Helper: inversion of a successful `get_results` call, per emitted
record. -/
theorem get_results_ok_mem (env : Env) (q : TSQuery) (path : String) (i : Nat)
    (out : List String) (h : get_results env q path i = .ok out)
    (r : String) (hr : r ∈ out) :
    ∃ bytes, env.readFileBytes path = some bytes ∧
      ∃ ms, get_matches env q i bytes rustLanguage = .ok ms ∧
        ∃ m ∈ ms, r = path ++ ":" ++ toString m.start ++ ":" ++ toString m.stop := by
  unfold get_results at h
  split at h
  · rename_i hb
    simp at h
    subst h
    simp at hr
  · rename_i bytes hb
    split at h
    · simp at h
    · rename_i ms hm
      simp at h
      subst h
      rcases List.mem_map.mp hr with ⟨m, hmem, hmap⟩
      exact ⟨bytes, hb, ms, hm, m, hmem, hmap.symm⟩

/-- Helper: inversion of a successful `runFiles` call, per emitted record. -/
theorem runFiles_ok_mem (env : Env) (q : TSQuery) (entries : List DirEntry)
    (out : List String) (h : runFiles env q entries = .ok out)
    (r : String) (hr : r ∈ out) :
    ∃ entry ∈ entries, ∃ records,
      get_results env q entry.path 0 = .ok records ∧ r ∈ records := by
  induction entries generalizing out with
  | nil =>
    simp [runFiles] at h
    subst h
    simp at hr
  | cons entry rest ih =>
    rw [runFiles] at h
    split at h
    · simp at h
    · rename_i records hg
      split at h
      · simp at h
      · rename_i restRecords hrest
        simp at h
        subst h
        rcases List.mem_append.mp hr with hr | hr
        · exact ⟨entry, List.mem_cons_self entry rest, records, hg, hr⟩
        · rcases ih restRecords hrest hr with ⟨e0, he0, recs, hrecs, hrmem⟩
          exact ⟨e0, List.mem_cons_of_mem entry he0, recs, hrecs, hrmem⟩

/-- Helper: inversion of a successful `run`: the query file was readable,
the query compiled, and the per-file pipeline succeeded. -/
theorem run_ok_inv (env : Env) (p : String) (out : List String)
    (h : run env p = .ok out) :
    ∃ qs, env.readFile p = some qs ∧
      ∃ q, env.compileQuery rustLanguage qs = some q ∧
        runFiles env q (enumerate_project_files env.walkEntries) = .ok out := by
  unfold run at h
  split at h
  · simp at h
  · rename_i qs hf
    unfold get_query at h
    split at h
    · simp at h
    · rename_i query heq
      split at heq
      · rename_i q0 hc0
        simp at heq
        subst heq
        exact ⟨qs, hf, q0, hc0, h⟩
      · simp at heq

/-- C2: for every query source string that the grammar query compiler
rejects, the run fails as a whole (the `unwrap` in `get_query` panics, a
non-zero exit) and produces no match output: `run` returns the panic error
and no record list. -/
theorem invalid_query_aborts_run (env : Env) (p qs : String)
    (hread : env.readFile p = some qs)
    (hcompile : env.compileQuery rustLanguage qs = none) :
    run env p = .error "called Option.unwrap on a None value" := by
  unfold run get_query
  simp [hread, hcompile]

/-- Witness for C2 at a concrete world whose compiler rejects the source. -/
theorem invalid_query_aborts_run_witness :
    envBadQuery.readFile "q.scm" = some "(function_item) @f" ∧
    envBadQuery.compileQuery rustLanguage "(function_item) @f" = none ∧
    run envBadQuery "q.scm" = .error "called Option.unwrap on a None value" :=
  ⟨rfl, rfl, invalid_query_aborts_run envBadQuery "q.scm" "(function_item) @f"
    rfl rfl⟩

/-- C7: if the query-file path is unreadable, the run fails before any file
work (the conclusion holds for every world with that readFile outcome,
regardless of its walk or file contents) with the panic of the `unwrap` on
`fs::read_to_string`, a non-zero exit, and emits nothing. -/
theorem query_file_unreadable_aborts_run (env : Env) (p : String)
    (hread : env.readFile p = none) :
    run env p = .error "called Result.unwrap on an Err value" := by
  unfold run
  simp [hread]

/-- Witness for C7 at a concrete world whose query file is unreadable. -/
theorem query_file_unreadable_aborts_run_witness :
    envNoFile.readFile "q.scm" = none ∧
    run envNoFile "q.scm" = .error "called Result.unwrap on an Err value" :=
  ⟨rfl, query_file_unreadable_aborts_run envNoFile "q.scm" rfl⟩

/-- C6: every path yielded by the file enumerator has extension "rs" (the
extension claimed by the enabled grammar); in particular a file with no
extension is never yielded.  The recursion from the current directory and
the ignore-file handling live in the walker of the ignore crate, modelled as
the oracle list the enumerator filters. -/
theorem enumerated_files_have_rs_extension (walkEntries : List WalkItem)
    (entry : DirEntry) (h : entry ∈ enumerate_project_files walkEntries) :
    entry.extension = some "rs" := by
  unfold enumerate_project_files at h
  have hp := (List.mem_filter.mp h).2
  cases hext : entry.extension with
  | none => simp [hext] at hp
  | some ext =>
    simp [hext] at hp
    exact congrArg some hp.symm

/-- Witness for C6 at a concrete walk containing a matching entry, a walk
error and an extensionless entry. -/
theorem enumerated_files_have_rs_extension_witness :
    (⟨"./a.rs", some "rs"⟩ : DirEntry) ∈
        enumerate_project_files envW.walkEntries ∧
    (⟨"./a.rs", some "rs"⟩ : DirEntry).extension = some "rs" :=
  ⟨by decide,
    enumerated_files_have_rs_extension envW.walkEntries ⟨"./a.rs", some "rs"⟩
      (by decide)⟩

/-- C9: the file enumerator silently discards any errored walk entry: the
enumeration with an error item inserted anywhere equals the enumeration
without it (nothing is reported, the run continues). -/
theorem walk_errors_silently_dropped (xs ys : List WalkItem) (e : String) :
    enumerate_project_files (xs ++ .error e :: ys) =
      enumerate_project_files (xs ++ ys) := by
  simp [enumerate_project_files, List.filterMap_append]

/-- C3: for every file, grammar, compiled query and capture index (on the
happy path: valid UTF-8, compatible grammar version, well-ranged nodes),
`get_matches` produces exactly one match record per node captured at the
capture index across all query matches, each carrying the byte range of its
node. -/
theorem get_matches_one_record_per_captured_node (env : Env) (q : TSQuery)
    (i : Nat) (b : List Nat) (l : TSLanguage)
    (hutf : validUtf8 b = true) (hver : env.versionOk l = true)
    (hranges : ∀ n ∈ (env.queryMatches q (env.parseTree l b).rootNode b).flatMap
        (fun m => m.nodes_for_capture_index i), n.startByte ≤ n.endByte) :
    get_matches env q i b l =
      .ok (((env.queryMatches q (env.parseTree l b).rootNode b).flatMap
          (fun m => m.nodes_for_capture_index i)).map
        (fun n => ⟨n.startByte, n.endByte⟩)) := by
  rw [get_matches_ok_eq env q i b l hutf hver]
  exact exceptMap_new_ok _ hranges

/-- Witness for C3 at a concrete world with one query match capturing one
node at index 0. -/
theorem get_matches_one_record_per_captured_node_witness :
    validUtf8 [102, 110] = true ∧
    get_matches envW ⟨1⟩ 0 [102, 110] rustLanguage = .ok [⟨0, 2⟩] := by
  refine ⟨rfl, ?_⟩
  have h := get_matches_one_record_per_captured_node envW ⟨1⟩ 0 [102, 110]
    rustLanguage rfl rfl (by decide)
  simpa using h

/-- C5: every match record returned by a successful `get_matches` call
satisfies start ≤ stop ≤ file length, given that the captured nodes of the
query cursor lie within the file (the documented tree-sitter guarantee for
nodes of a tree parsed from that text); start ≤ stop needs no such
hypothesis, as the `assert!` inside `Match::new` enforces it. -/
theorem match_records_within_file (env : Env) (q : TSQuery) (i : Nat)
    (b : List Nat) (l : TSLanguage) (ms : List GrepMatch)
    (h : get_matches env q i b l = .ok ms)
    (hbound : ∀ m ∈ env.queryMatches q (env.parseTree l b).rootNode b,
        ∀ c ∈ m.captures, c.2.endByte ≤ b.length) :
    ∀ rec ∈ ms, rec.start ≤ rec.stop ∧ rec.stop ≤ b.length := by
  obtain ⟨hutf, hver, hmap⟩ := get_matches_ok_inv env q i b l ms h
  intro rec hrec
  rcases exceptMap_ok_mem _ _ _ hmap rec hrec with ⟨n, hn, hnew⟩
  unfold GrepMatch.new at hnew
  by_cases hle : n.startByte ≤ n.endByte
  · rw [if_pos hle] at hnew
    simp at hnew
    rcases List.mem_flatMap.mp hn with ⟨m, hm, hnm⟩
    have hcap := mem_nodes_for_capture_index hnm
    have hb := hbound m hm (i, n) hcap
    rw [← hnew]
    exact ⟨hle, hb⟩
  · rw [if_neg hle] at hnew
    simp at hnew

/-- Witness for C5 at a concrete world: the record (0, 2) on the two-byte
file. -/
theorem match_records_within_file_witness :
    (⟨0, 2⟩ : GrepMatch).start ≤ (⟨0, 2⟩ : GrepMatch).stop ∧
    (⟨0, 2⟩ : GrepMatch).stop ≤ ([102, 110] : List Nat).length :=
  match_records_within_file envW ⟨1⟩ 0 [102, 110] rustLanguage [⟨0, 2⟩]
    rfl (by decide) ⟨0, 2⟩ (by decide)

/-- C8: for every valid-UTF-8 file text and version-compatible grammar, the
parser is obtained with the grammar set, `parse` returns a tree (its `none`
branch is unreachable, even for text with syntax errors, since the parse
oracle is total), and `get_matches` proceeds to execute the query against
that tree instead of aborting. -/
theorem parse_always_returns_tree (env : Env) (q : TSQuery) (i : Nat)
    (b : List Nat) (l : TSLanguage)
    (hutf : validUtf8 b = true) (hver : env.versionOk l = true) :
    ∃ parser, getParser env l = .ok parser ∧
      parser.parse env b = some (env.parseTree l b) ∧
      get_matches env q i b l =
        exceptMap (fun node => GrepMatch.new node.startByte node.endByte)
          ((env.queryMatches q (env.parseTree l b).rootNode b).flatMap
            (fun m => m.nodes_for_capture_index i)) := by
  refine ⟨⟨some l⟩, ?_, rfl, get_matches_ok_eq env q i b l hutf hver⟩
  unfold getParser TSParser.set_language
  simp [hver]

/-- Witness for C8 at a concrete world. -/
theorem parse_always_returns_tree_witness :
    ∃ parser, getParser envW rustLanguage = .ok parser ∧
      parser.parse envW [102, 110] =
        some (envW.parseTree rustLanguage [102, 110]) ∧
      get_matches envW ⟨1⟩ 0 [102, 110] rustLanguage =
        exceptMap (fun node => GrepMatch.new node.startByte node.endByte)
          ((envW.queryMatches ⟨1⟩
              (envW.parseTree rustLanguage [102, 110]).rootNode
              [102, 110]).flatMap
            (fun m => m.nodes_for_capture_index 0)) :=
  parse_always_returns_tree envW ⟨1⟩ 0 [102, 110] rustLanguage rfl rfl

/-- C10: `get_matches` is deterministic: two invocations with the same
query, capture index, file bytes and language yield identical record lists
in identical order, for any two worlds that agree on the oracles
`get_matches` consults at those inputs (version check, parse, query cursor);
nothing else in the world can influence the result. -/
theorem get_matches_deterministic (env1 env2 : Env) (q : TSQuery) (i : Nat)
    (b : List Nat) (l : TSLanguage)
    (hver : env1.versionOk l = env2.versionOk l)
    (htree : env1.parseTree l b = env2.parseTree l b)
    (hmatches : ∀ root, env1.queryMatches q root b = env2.queryMatches q root b) :
    get_matches env1 q i b l = get_matches env2 q i b l := by
  unfold get_matches from_utf8 getParser TSParser.set_language
  rw [← hver]
  by_cases hutf : validUtf8 b
  · by_cases hv : env1.versionOk l
    · simp [hutf, hv, TSParser.parse, htree, hmatches]
    · simp [hutf, hv]
  · simp [hutf]

/-- Witness for C10: two concrete worlds differing in their filesystem and
walk yield the same match records. -/
theorem get_matches_deterministic_witness :
    get_matches envW ⟨1⟩ 0 [102, 110] rustLanguage =
      get_matches envW2 ⟨1⟩ 0 [102, 110] rustLanguage :=
  get_matches_deterministic envW envW2 ⟨1⟩ 0 [102, 110] rustLanguage
    rfl rfl (fun _ => rfl)

/-- Counterexample for C1 as stated: in the concrete world `envBad` the
first enumerated file has invalid UTF-8 bytes; the second file alone would
produce a record (second conjunct), yet the whole run aborts with the
UTF-8 panic of `get_matches` and emits nothing, so the encoding failure is
not per-file and the run does not continue. -/
theorem encoding_error_not_per_file :
    validUtf8 [0xFF] = false ∧
    runFiles envBad ⟨1⟩ [⟨"./good.rs", some "rs"⟩] = .ok ["./good.rs:0:2"] ∧
    run envBad "q.scm" = .error "Expected file text to be valid UTF-8" :=
  ⟨rfl, rfl, rfl⟩

/-- C1 (amended): a file whose bytes are not valid UTF-8 makes `get_matches`
panic with "Expected file text to be valid UTF-8"; the panic is fatal to
the whole run (not per-file): when such a file is reached, `run` returns
that error and emits no results for any file. -/
theorem encoding_error_fatal_to_run (env : Env) (p qs : String) (q : TSQuery)
    (entry : DirEntry) (rest : List DirEntry) (bytes : List Nat)
    (hread : env.readFile p = some qs)
    (hcompile : env.compileQuery rustLanguage qs = some q)
    (henum : enumerate_project_files env.walkEntries = entry :: rest)
    (hbytes : env.readFileBytes entry.path = some bytes)
    (hutf : validUtf8 bytes = false) :
    run env p = .error "Expected file text to be valid UTF-8" := by
  unfold run get_query
  rw [hread]
  simp only [hcompile]
  rw [henum, runFiles]
  unfold get_results
  rw [hbytes]
  unfold get_matches from_utf8
  simp [hutf]

/-- Witness for the amended C1 at the concrete world `envBad`. -/
theorem encoding_error_fatal_to_run_witness :
    envBad.readFileBytes "./bad.rs" = some [0xFF] ∧
    validUtf8 [0xFF] = false ∧
    run envBad "q.scm" = .error "Expected file text to be valid UTF-8" :=
  ⟨rfl, rfl, encoding_error_fatal_to_run envBad "q.scm" "(function_item) @f"
    ⟨1⟩ ⟨"./bad.rs", some "rs"⟩ [⟨"./good.rs", some "rs"⟩] [0xFF]
    rfl rfl rfl rfl rfl⟩

/-- C4: the user supplies no capture name (the CLI of src/lib.rs has none);
every record emitted by a successful `run` originates from a node captured
at capture index 0 — the literal index `run` hands to the per-file pipeline
— in some query match of some enumerated file. -/
theorem run_extracts_capture_index_zero (env : Env) (p : String)
    (out : List String) (h : run env p = .ok out) (r : String) (hr : r ∈ out) :
    ∃ qs, env.readFile p = some qs ∧
    ∃ q, env.compileQuery rustLanguage qs = some q ∧
    ∃ entry ∈ enumerate_project_files env.walkEntries,
    ∃ bytes, env.readFileBytes entry.path = some bytes ∧
    ∃ m ∈ env.queryMatches q (env.parseTree rustLanguage bytes).rootNode bytes,
    ∃ node, (0, node) ∈ m.captures ∧
      r = entry.path ++ ":" ++ toString node.startByte ++ ":" ++
        toString node.endByte := by
  obtain ⟨qs, hqs, q, hq, hrf⟩ := run_ok_inv env p out h
  obtain ⟨entry, hentry, records, hrecords, hrmem⟩ :=
    runFiles_ok_mem env q _ out hrf r hr
  obtain ⟨bytes, hbytes, ms, hms, m0, hm0, hform⟩ :=
    get_results_ok_mem env q entry.path 0 records hrecords r hrmem
  obtain ⟨hutf, hver, hmap⟩ := get_matches_ok_inv env q 0 bytes rustLanguage ms hms
  obtain ⟨n, hn, hnew⟩ := exceptMap_ok_mem _ _ _ hmap m0 hm0
  obtain ⟨mq, hmq, hnodes⟩ := List.mem_flatMap.mp hn
  have hcap := mem_nodes_for_capture_index hnodes
  refine ⟨qs, hqs, q, hq, entry, hentry, bytes, hbytes, mq, hmq, n, hcap, ?_⟩
  unfold GrepMatch.new at hnew
  by_cases hle : n.startByte ≤ n.endByte
  · rw [if_pos hle] at hnew
    simp at hnew
    rw [hform, ← hnew]
  · rw [if_neg hle] at hnew
    simp at hnew

/-- Witness for C4 at the concrete world `envW`, whose run emits exactly one
record. -/
theorem run_extracts_capture_index_zero_witness :
    ∃ qs, envW.readFile "q.scm" = some qs ∧
    ∃ q, envW.compileQuery rustLanguage qs = some q ∧
    ∃ entry ∈ enumerate_project_files envW.walkEntries,
    ∃ bytes, envW.readFileBytes entry.path = some bytes ∧
    ∃ m ∈ envW.queryMatches q (envW.parseTree rustLanguage bytes).rootNode bytes,
    ∃ node, (0, node) ∈ m.captures ∧
      "./a.rs:0:2" = entry.path ++ ":" ++ toString node.startByte ++ ":" ++
        toString node.endByte :=
  run_extracts_capture_index_zero envW "q.scm" ["./a.rs:0:2"] rfl
    "./a.rs:0:2" (by simp)
